import Mathlib

/-!
# Verification of the IOTA Streams channels C binding surface

This file embeds, in Lean 4, the parts of the `iotaledger/streams` C binding
surface needed to settle the frozen claims: the two concrete C helper
functions present in the repository (`rand_seed` in `bindings/c/main.c` and
the seed-filling loop of `c/main.c`), and a model of the core channel
protocol engine (Author/Subscriber session states, link derivation, keyload
access control, sequencing and sync, export/import, recovery).  The engine
itself is implemented in Rust and is not part of the C sources, so those
definitions are modelled from the specification, as marked in their doc
comments.
-/

namespace Streams

/-! ## Part 1: concrete C code embedded from the sources -/

/-- The 76-character seed alphabet of `rand_seed` in `src/bindings/c/main.c`
(line 8).  The C array `alphabet` additionally holds a terminating NUL, so
`sizeof(alphabet) - 1 = 76 = seedAlphabet.length`. -/
def seedAlphabet : List Char :=
  "abcdefghijklmnopqrstuvwxyzABCDEFGHIJKLMNOPQRSTUVWXYZ0123456789!@#$%^&*()-=_+".toList

/-- The loop `for(; --n; ) { int key = rand() % (sizeof(alphabet) - 1); *seed++ = alphabet[key]; }`
of `rand_seed` (src/bindings/c/main.c lines 12-16).  `rand` is the stream of
values returned by the C `rand()` calls, indexed by call number `i`; the
result is the list of characters stored through the advancing `seed`
pointer.  `--n` decrements before the test, so a call with `n` performs
`n - 1` iterations. -/
def rand_seed_loop (rand : Nat → Nat) : Nat → Nat → List Char
  | _, 0 => []
  | _, 1 => []
  | i, n + 2 =>
    seedAlphabet.getD (rand i % seedAlphabet.length) 'a' ::
      rand_seed_loop rand (i + 1) (n + 1)

/-- The operation `rand_seed(seed, n)` from `src/bindings/c/main.c` (lines 6-18), as the
list of bytes it stores into the buffer: the guarded loop writes `n - 1`
alphabet characters (for non-null `seed` and `n > 0`), then the
unconditional `*seed = '\x30'`-style final statement stores a NUL
terminator at the next position. -/
def rand_seed (rand : Nat → Nat) (n : Nat) : List Char :=
  (if n ≠ 0 then rand_seed_loop rand 0 n else []) ++ [Char.ofNat 0]

/-- The size of the local array `char seed[10]` in `main` of `src/c/main.c`
(line 10). -/
def seedArrayLen : Nat := 10

/-- The sequence of store indices into `seed` executed by `main` of
`src/c/main.c`: the loop `for (size_t n = 0; n < 10; n++) seed[n] = ...`
(lines 14-17) stores at indices 0..9, then the statement `seed[10] = '\x30'`
style terminator store at line 18 uses index 10. -/
def mainSeedStoreIndices : List Nat := List.range 10 ++ [10]

/-! ### Lemmas about `rand_seed` -/

theorem seedAlphabet_length : seedAlphabet.length = 76 := by decide

theorem rand_seed_loop_length (rand : Nat → Nat) :
    ∀ i n, (rand_seed_loop rand i n).length = n - 1 := by
  intro i n
  induction n using Nat.strong_induction_on generalizing i with
  | _ n ih =>
    match n with
    | 0 => simp [rand_seed_loop]
    | 1 => simp [rand_seed_loop]
    | n + 2 =>
      simp only [rand_seed_loop, List.length_cons]
      rw [ih (n + 1) (by omega) (i + 1)]
      omega

theorem rand_seed_loop_mem (rand : Nat → Nat) :
    ∀ i n c, c ∈ rand_seed_loop rand i n → c ∈ seedAlphabet := by
  intro i n
  induction n using Nat.strong_induction_on generalizing i with
  | _ n ih =>
    match n with
    | 0 => intro c hc; simp [rand_seed_loop] at hc
    | 1 => intro c hc; simp [rand_seed_loop] at hc
    | n + 2 =>
      intro c hc
      simp only [rand_seed_loop, List.mem_cons] at hc
      rcases hc with hc | hc
      · subst hc
        have hlt : rand i % seedAlphabet.length < seedAlphabet.length := by
          exact Nat.mod_lt _ (by decide)
        rw [List.getD_eq_getElem seedAlphabet 'a' hlt]
        exact List.getElem_mem hlt
      · exact ih (n + 1) (by omega) (i + 1) c hc

theorem seedAlphabet_no_nul : ∀ c ∈ seedAlphabet, (c != Char.ofNat 0) = true := by
  decide

theorem takeWhile_append_nul (nul : Char) :
    ∀ xs : List Char, (∀ c ∈ xs, (c != nul) = true) →
      (xs ++ [nul]).takeWhile (· != nul) = xs := by
  intro xs
  induction xs with
  | nil => intro _; simp [List.takeWhile]
  | cons x rest ih =>
    intro h
    have hx := h x (by simp)
    simp only [List.cons_append, List.takeWhile_cons, hx, if_true]
    rw [ih (fun c hc => h c (by simp [hc]))]

/-! ### Claim theorems for the concrete C code -/

/-- C9: for every rand stream and every `n ≥ 1`, `rand_seed(seed, n)` writes
exactly `n - 1` characters, each drawn from the fixed 76-character alphabet,
then a NUL terminator at index `n - 1`, so the stored C string has length
exactly `n - 1`. -/
theorem rand_seed_spec (rand : Nat → Nat) (n : Nat) (h : 1 ≤ n) :
    seedAlphabet.length = 76 ∧
    (rand_seed_loop rand 0 n).length = n - 1 ∧
    (∀ c ∈ rand_seed_loop rand 0 n, c ∈ seedAlphabet) ∧
    (rand_seed rand n).getD (n - 1) 'a' = Char.ofNat 0 ∧
    ((rand_seed rand n).takeWhile (· != Char.ofNat 0)).length = n - 1 := by
  have hn : n ≠ 0 := by omega
  have hlen := rand_seed_loop_length rand 0 n
  have hmem := rand_seed_loop_mem rand 0 n
  refine ⟨seedAlphabet_length, hlen, hmem, ?_, ?_⟩
  · show (rand_seed rand n).getD (n - 1) 'a' = Char.ofNat 0
    unfold rand_seed
    rw [if_pos hn]
    rw [List.getD_eq_getElem?_getD, List.getElem?_append_right (by omega)]
    simp [hlen]
  · unfold rand_seed
    rw [if_pos hn]
    rw [takeWhile_append_nul (Char.ofNat 0) _
      (fun c hc => seedAlphabet_no_nul c (hmem c hc))]
    exact hlen

/-- Witness for C9 at `n = 5` with the constant-zero rand stream. -/
theorem rand_seed_spec_witness :
    1 ≤ 5 ∧
    (seedAlphabet.length = 76 ∧
      (rand_seed_loop (fun _ => 0) 0 5).length = 5 - 1 ∧
      (∀ c ∈ rand_seed_loop (fun _ => 0) 0 5, c ∈ seedAlphabet) ∧
      (rand_seed (fun _ => 0) 5).getD (5 - 1) 'a' = Char.ofNat 0 ∧
      ((rand_seed (fun _ => 0) 5).takeWhile (· != Char.ofNat 0)).length = 5 - 1) :=
  ⟨by decide, rand_seed_spec (fun _ => 0) 5 (by decide)⟩

/-- C10: the claim that every store into the 10-element array `seed` in
`main` of `src/c/main.c` is in bounds is false: the loop stores at indices
0..9, but the final terminator store at line 18 uses index 10, one past the
end of the array.  This theorem records the divergence: index 10 is among
the executed store indices and is not within bounds, while every other
executed store index is. -/
theorem main_seed_store_out_of_bounds :
    (10 ∈ mainSeedStoreIndices ∧ ¬ 10 < seedArrayLen) ∧
    ¬ (∀ i ∈ mainSeedStoreIndices, i < seedArrayLen) ∧
    (∀ i ∈ mainSeedStoreIndices, i ≠ 10 → i < seedArrayLen) := by
  decide

/-! ## Part 2: the core protocol engine, modelled from the specification

The Rust engine behind the binding surface is not part of the C sources;
only its declarations (`include/iota_streams/channels.h`) and its caller
(`bindings/c/main.c`) are.  The definitions below are therefore modelled
from the specification (spec.md sections 3-4.7), keeping the binding
surface's operation names. -/

/-- Modelled from the spec (section 3, Identifier): a stable participant
identifier, derived from a public signing key or from a pre-shared-key id. -/
inductive Identifier
  | pk (n : Nat)
  | fromPsk (n : Nat)
deriving DecidableEq, Repr

/-- Modelled from the spec (section 3, Link): an address pair
`(channel_id, message_id)`. -/
structure Link where
  chan : Nat
  msgid : Nat
deriving DecidableEq, Repr

/-- Session (symmetric) key material, abstractly. -/
abbrev Key := Nat

/-- Payload bytes. -/
abbrev Bytes := List Nat

/-- Modelled from the spec (section 7): the error taxonomy of the engine,
surfaced through `err_t` at the binding boundary. -/
inductive Err
  | invalidSeed
  | unboundChannel
  | authenticationFailed
  | noAccess
  | linkConflict
  | notFound
  | emptyRecipientSet
  | badPassword
  | badArgument
deriving DecidableEq, Repr

/-- Injective encoding of identifiers into naturals, used by the
deterministic link derivation. -/
def encodeId : Identifier → Nat
  | .pk n => 2 * n
  | .fromPsk n => 2 * n + 1

/-- Modelled from the spec (section 4.2): `next_link(channel_id, identifier,
seq)`, the deterministic multi-branch derivation of the address of the
content message a given identifier publishes at a given sequence number. -/
def nextLink (chan : Nat) (id : Identifier) (seq : Nat) : Link :=
  ⟨chan, Nat.pair 0 (Nat.pair (encodeId id) seq)⟩

/-- Modelled from the spec (sections 3 and 4.4): the deterministic address
of the Sequence message a publisher emits alongside its content message at
a given sequence number in multi-branch mode. -/
def seqMsgLink (chan : Nat) (id : Identifier) (seq : Nat) : Link :=
  ⟨chan, Nat.pair 1 (Nat.pair (encodeId id) seq)⟩

/-- Modelled from the spec (section 4.2): `channel_root(identity)`, the
Announce-time root derivation. -/
def channelRoot (chan : Nat) : Link := ⟨chan, Nat.pair 2 0⟩

/-- Modelled from the spec (section 4.2): `chain_link(previous,
shared_secret)`, the single-branch hash-chain derivation. -/
def chainLink (prev : Link) (secret : Nat) : Link :=
  ⟨prev.chan, Nat.pair 3 (Nat.pair prev.msgid secret)⟩

/-- Modelled from the spec (section 4.3): encryption of the masked payload
under a session key, abstractly as an authenticated container carrying the
key it was encrypted under. -/
def encryptPayload (k : Key) (b : Bytes) : Key × Bytes := (k, b)

/-- Modelled from the spec (section 4.3): decryption succeeds exactly when
the caller holds the matching session key. -/
def decryptPayload (k : Key) (c : Key × Bytes) : Option Bytes :=
  if c.1 = k then some c.2 else none

/-- Modelled from the spec (section 3, Message): the body of a message. -/
inductive Content
  | announce
  | subscribe (subId : Identifier)
  | keyload (recips : List Identifier) (psks : List Nat) (key : Key)
  | taggedPacket (keyloadLink : Link) (publicPayload : Bytes)
      (maskedPayload : Key × Bytes)
  | signedPacket (keyloadLink : Link) (publicPayload : Bytes)
      (maskedPayload : Key × Bytes)
  | sequenceMsg (target : Link)
deriving DecidableEq, Repr

/-- Modelled from the spec (section 3, Message): an immutable record once
sent: its link, causal previous link, sender identifier, the sender's
sequence number in its branch, and its body. -/
structure Message where
  link : Link
  prev : Link
  sender : Identifier
  seq : Nat
  content : Content
deriving DecidableEq, Repr

/-- Modelled from the spec (section 6): the transport collaborator, a store
addressed purely by Link. -/
def Transport := Link → Option Message

/-- The empty transport. -/
def Transport.empty : Transport := fun _ => none

/-- The operation `send(link, bytes)` on the transport: store a message under its link. -/
def Transport.store (t : Transport) (m : Message) : Transport :=
  fun l => if l = m.link then some m else t l

/-- The operation `fetch(link)` on the transport. -/
def Transport.fetch (t : Transport) (l : Link) : Option Message := t l

/-- Modelled from the spec (section 3, Session State): the per-user session
state of an Author or Subscriber. -/
structure UserState where
  id : Identifier
  chan : Option Nat
  cursors : Identifier → Nat
  known : List Identifier
  subscribers : List Identifier
  psks : List Nat
  keys : List (Link × Key)
  activeKeyload : Option Link
  links : Identifier → Option Link

/-- Monotone cursor update: receiving or sending never moves a cursor
backwards (spec section 3, invariant (b)). -/
def bumpCursor (s : UserState) (i : Identifier) (n : Nat) : UserState :=
  { s with cursors := fun j => if j = i then max (s.cursors i) n else s.cursors j }

/-- Record the latest known link published by an identifier (backing
`get_link_from_state`). -/
def recordLink (s : UserState) (i : Identifier) (l : Link) : UserState :=
  { s with links := fun j => if j = i then some l else s.links j }

/-- Look up the session key stored for a keyload link. -/
def lookupKey : List (Link × Key) → Link → Option Key
  | [], _ => none
  | (l', k) :: rest, l => if l' = l then some k else lookupKey rest l

/-- Add an identifier to a list if not already present. -/
def insertId (i : Identifier) (l : List Identifier) : List Identifier :=
  if i ∈ l then l else i :: l

/-- Modelled from the spec (section 4.5): a subscriber is covered by a
keyload when its identifier is in the recipient set or it stores one of the
keyload's PSK ids. -/
def coveredBy (s : UserState) (recips : List Identifier) (psks : List Nat) : Prop :=
  s.id ∈ recips ∨ ∃ p ∈ s.psks, p ∈ psks

instance (s : UserState) (recips : List Identifier) (psks : List Nat) :
    Decidable (coveredBy s recips psks) := by
  unfold coveredBy; infer_instance

/-- The operation `get_link_from_state` (channels.h line 234): the link recorded in a
session state for a given identifier. -/
def get_link_from_state (s : UserState) (i : Identifier) : Option Link :=
  s.links i

/-- Modelled from the spec (section 4.1): `auth_new` derives the author's
identity deterministically from the seed; the channel id is derived from
the identity at creation time. -/
def freshAuthor (seed : Nat) : UserState where
  id := .pk seed
  chan := some seed
  cursors := fun _ => 0
  known := [.pk seed]
  subscribers := []
  psks := []
  keys := []
  activeKeyload := none
  links := fun _ => none

/-- Modelled from the spec (section 4.1): `sub_new` derives the subscriber's
identity from the seed; it is unbound until it receives an Announce. -/
def freshSubscriber (seed : Nat) : UserState where
  id := .pk seed
  chan := none
  cursors := fun _ => 0
  known := []
  subscribers := []
  psks := []
  keys := []
  activeKeyload := none
  links := fun _ => none

/-! ### Send and receive operations -/

/-- Modelled from the spec (sections 4.2-4.4): publishing a content message
in multi-branch mode.  The sender allocates its next sequence number,
derives the content link and the accompanying Sequence-message link
deterministically, stores both messages on the transport, and advances its
own cursor.  Returns the new state, transport, content link and sequence
link (the `message_links_t` pair of the binding surface). -/
def sendMessage (st : UserState) (t : Transport) (prev : Link) (c : Content) :
    Except Err (UserState × Transport × Link × Link) :=
  match st.chan with
  | none => .error .unboundChannel
  | some ch =>
    let seq := st.cursors st.id
    let mlink := nextLink ch st.id seq
    let slink := seqMsgLink ch st.id seq
    let cmsg : Message := ⟨mlink, prev, st.id, seq, c⟩
    let smsg : Message := ⟨slink, prev, st.id, seq, .sequenceMsg mlink⟩
    let st' := recordLink (bumpCursor st st.id (seq + 1)) st.id mlink
    .ok (st', (t.store cmsg).store smsg, mlink, slink)

/-- The operation `auth_send_announce` (channels.h line 126): the Announce message is
stored at the channel root link. -/
def auth_send_announce (a : UserState) (t : Transport) :
    Except Err (UserState × Transport × Link) :=
  match a.chan with
  | none => .error .unboundChannel
  | some ch =>
    let l := channelRoot ch
    .ok (recordLink a a.id l, t.store ⟨l, l, a.id, 0, .announce⟩, l)

/-- The operation `sub_receive_announce` (channels.h line 183): bind the subscriber to the
announced channel and register the author as a known publisher. -/
def sub_receive_announce (s : UserState) (t : Transport) (l : Link) :
    Except Err UserState :=
  match t.fetch l with
  | none => .error .notFound
  | some m =>
    match m.content with
    | .announce =>
      .ok { s with chan := some m.link.chan, known := insertId m.sender s.known }
    | _ => .error .badArgument

/-- The operation `sub_send_subscribe` (channels.h line 185). -/
def sub_send_subscribe (s : UserState) (t : Transport) (annLink : Link) :
    Except Err (UserState × Transport × Link × Link) :=
  sendMessage s t annLink (.subscribe s.id)

/-- The operation `auth_receive_subscribe` (channels.h line 132): registers the subscribing
identifier; acceptance is implicit (spec section 4.6). -/
def auth_receive_subscribe (a : UserState) (t : Transport) (l : Link) :
    Except Err UserState :=
  match t.fetch l with
  | none => .error .notFound
  | some m =>
    match m.content with
    | .subscribe subId =>
      .ok { recordLink (bumpCursor a m.sender (m.seq + 1)) m.sender m.link with
              subscribers := insertId subId a.subscribers,
              known := insertId subId a.known }
    | _ => .error .badArgument

/-- The session key a keyload distributes, derived deterministically in this
model from the channel and the author's position. -/
def freshKey (ch : Nat) (seq : Nat) : Key := Nat.pair ch seq

/-- The operation `auth_send_keyload_for_everyone` (channels.h line 128): distributes a
fresh session key to all registered subscriber identifiers plus all stored
PSK ids (spec section 4.5), and makes it the author's active session key. -/
def auth_send_keyload_for_everyone (a : UserState) (t : Transport) (prev : Link) :
    Except Err (UserState × Transport × Link × Link) :=
  match a.chan with
  | none => .error .unboundChannel
  | some ch =>
    match sendMessage a t prev
        (.keyload a.subscribers a.psks (freshKey ch (a.cursors a.id))) with
    | .error e => .error e
    | .ok (a', t', ml, sl) =>
      .ok ({ a' with
              keys := (ml, freshKey ch (a.cursors a.id)) :: a'.keys,
              activeKeyload := some ml },
           t', ml, sl)

/-- The operation `sub_receive_sequence` (channels.h line 197): resolve a Sequence message
to the content link it announces, advancing that publisher's cursor (spec
section 4.6). -/
def sub_receive_sequence (s : UserState) (t : Transport) (l : Link) :
    Except Err (UserState × Link) :=
  match t.fetch l with
  | none => .error .notFound
  | some m =>
    match m.content with
    | .sequenceMsg target => .ok (bumpCursor s m.sender (m.seq + 1), target)
    | _ => .error .badArgument

/-- The operation `sub_receive_keyload` (channels.h line 188): a subscriber covered by the
recipient set adopts the distributed session key (stored under the keyload
link, which becomes its active keyload); one not covered fails closed with
`NoAccess` and learns nothing (spec section 4.5). -/
def sub_receive_keyload (s : UserState) (t : Transport) (l : Link) :
    Except Err UserState :=
  match t.fetch l with
  | none => .error .notFound
  | some m =>
    match m.content with
    | .keyload recips psks key =>
      if coveredBy s recips psks then
        .ok { recordLink (bumpCursor s m.sender (m.seq + 1)) m.sender m.link with
                keys := (m.link, key) :: s.keys,
                activeKeyload := some m.link }
      else .error .noAccess
    | _ => .error .badArgument

/-- The operation `auth_send_tagged_packet` (channels.h line 138): encrypted, unsigned
content; the masked payload is encrypted under the sender's currently
active session key, and the packet records the keyload link governing it
(spec sections 4.3, 4.5, 4.6). -/
def auth_send_tagged_packet (a : UserState) (t : Transport) (prev : Link)
    (pub mask : Bytes) : Except Err (UserState × Transport × Link × Link) :=
  match a.activeKeyload with
  | none => .error .noAccess
  | some kl =>
    match lookupKey a.keys kl with
    | none => .error .noAccess
    | some k => sendMessage a t prev (.taggedPacket kl pub (encryptPayload k mask))

/-- The operation `auth_send_signed_packet` (channels.h line 141): encrypted and signed
content, proving the sender identifier (the signature is modelled by the
authenticated `sender` field of the stored message). -/
def auth_send_signed_packet (a : UserState) (t : Transport) (prev : Link)
    (pub mask : Bytes) : Except Err (UserState × Transport × Link × Link) :=
  match a.activeKeyload with
  | none => .error .noAccess
  | some kl =>
    match lookupKey a.keys kl with
    | none => .error .noAccess
    | some k => sendMessage a t prev (.signedPacket kl pub (encryptPayload k mask))

/-- The operation `sub_receive_tagged_packet` (channels.h line 192): decrypts the masked
payload only if the session state holds the session key of the keyload the
packet is linked under, else fails with `NoAccess` (spec section 4.3). -/
def sub_receive_tagged_packet (s : UserState) (t : Transport) (l : Link) :
    Except Err (UserState × Bytes × Bytes) :=
  match t.fetch l with
  | none => .error .notFound
  | some m =>
    match m.content with
    | .taggedPacket kl pub enc =>
      match lookupKey s.keys kl with
      | none => .error .noAccess
      | some k =>
        match decryptPayload k enc with
        | none => .error .noAccess
        | some b =>
          .ok (recordLink (bumpCursor s m.sender (m.seq + 1)) m.sender m.link,
               pub, b)
    | _ => .error .badArgument

/-- The operation `sub_receive_signed_packet` (channels.h line 195). -/
def sub_receive_signed_packet (s : UserState) (t : Transport) (l : Link) :
    Except Err (UserState × Bytes × Bytes) :=
  match t.fetch l with
  | none => .error .notFound
  | some m =>
    match m.content with
    | .signedPacket kl pub enc =>
      match lookupKey s.keys kl with
      | none => .error .noAccess
      | some k =>
        match decryptPayload k enc with
        | none => .error .noAccess
        | some b =>
          .ok (recordLink (bumpCursor s m.sender (m.seq + 1)) m.sender m.link,
               pub, b)
    | _ => .error .badArgument

/-! ### Message-id generation, syncing, persistence, recovery -/

/-- The operation `auth_gen_next_msg_ids` (channels.h line 146): for every known
identifier, the author derives the link of that identifier's next expected
message from its current cursor (spec sections 4.2, 4.6). -/
def auth_gen_next_msg_ids (a : UserState) : List (Identifier × Link) :=
  match a.chan with
  | none => []
  | some ch => a.known.map (fun i => (i, nextLink ch i (a.cursors i)))

/-- The operation `sub_gen_next_msg_ids` (channels.h line 199): the subscriber-side
derivation, computed independently of the sender. -/
def sub_gen_next_msg_ids (s : UserState) : List (Identifier × Link) :=
  match s.chan with
  | none => []
  | some ch => s.known.map (fun i => (i, nextLink ch i (s.cursors i)))

/-- One step of the catch-up fetch loop for a single publisher (spec
section 4.6): fetch the Sequence message at the publisher's cursor, resolve
it to the content link, fetch and unwrap the content (decrypting the masked
payload under the stored session key of the keyload it is linked under) and
advance the cursor.  `none` means "caught up" at this cursor (a fetch miss
is not an error). -/
def fetchNextFor (s : UserState) (t : Transport) (i : Identifier) :
    Option (UserState × (Bytes × Bytes)) :=
  match s.chan with
  | none => none
  | some ch =>
    match t.fetch (seqMsgLink ch i (s.cursors i)) with
    | none => none
    | some m =>
      match m.content with
      | .sequenceMsg target =>
        match t.fetch target with
        | none => none
        | some cm =>
          match cm.content with
          | .taggedPacket kl pub enc =>
            match lookupKey s.keys kl with
            | none => none
            | some k =>
              match decryptPayload k enc with
              | none => none
              | some b =>
                some (recordLink (bumpCursor s cm.sender (cm.seq + 1)) cm.sender
                        cm.link, (pub, b))
          | .signedPacket kl pub enc =>
            match lookupKey s.keys kl with
            | none => none
            | some k =>
              match decryptPayload k enc with
              | none => none
              | some b =>
                some (recordLink (bumpCursor s cm.sender (cm.seq + 1)) cm.sender
                        cm.link, (pub, b))
          | _ => none
      | _ => none

/-- Repeated fetching for one publisher until a fetch finds nothing (spec
section 4.6, `sync_state`); `fuel` bounds the iteration and is chosen at
least the number of pending messages by the caller. -/
def syncLoop : Nat → UserState → Transport → Identifier →
    UserState × List (Bytes × Bytes)
  | 0, s, _, _ => (s, [])
  | fuel + 1, s, t, i =>
    match fetchNextFor s t i with
    | none => (s, [])
    | some (s', p) =>
      let r := syncLoop fuel s' t i
      (r.1, p :: r.2)

/-- The operation `sub_sync_state` (channels.h line 207): catch up fully on every known
publisher, returning the unwrapped payloads; order follows identifier
registration order, and per publisher follows publish order. -/
def sub_sync_state (s : UserState) (t : Transport) (fuel : Nat) :
    UserState × List (Bytes × Bytes) :=
  s.known.foldl
    (fun acc i =>
      let r := syncLoop fuel acc.1 t i
      (r.1, acc.2 ++ r.2))
    (s, [])

/-- The operation `sub_reset_state` / `auth_reset_state` (channels.h lines 156, 209):
explicit Reset purges the session's reading state: cursors return to zero
and adopted session keys and recorded links are dropped. -/
def sub_reset_state (s : UserState) : UserState :=
  { s with cursors := fun _ => 0, keys := [], activeKeyload := none,
           links := fun _ => none }

/-- Modelled from the spec (section 4.7): the exported blob, an
authenticated password-protected container of the full session state. -/
structure ExportedState where
  pwTag : String
  payload : UserState

/-- The operation `auth_export` (channels.h line 117): serialize the full session state
encrypted under a password-derived key. -/
def auth_export (a : UserState) (pw : String) : ExportedState := ⟨pw, a⟩

/-- The operation `auth_import` (channels.h line 116): inverse of export; fails with
`BadPassword` when authentication of the blob fails, never returning a
partially-decrypted state. -/
def auth_import (b : ExportedState) (pw : String) : Except Err UserState :=
  if b.pwTag = pw then .ok b.payload else .error .badPassword

/-- Modelled from the spec (sections 4.6-4.7): processing one fetched
message during catch-up or recovery replay.  A Subscribe registers the
subscriber; an Announce binds the channel; a Keyload covering the session
(or sent by it) adds its key; content and sequence messages advance the
sender's cursor and record its latest link. -/
def processMsg (s : UserState) (m : Message) : UserState :=
  match m.content with
  | .announce => { s with chan := some m.link.chan, known := insertId m.sender s.known }
  | .subscribe subId =>
    { recordLink (bumpCursor s m.sender (m.seq + 1)) m.sender m.link with
        subscribers := insertId subId s.subscribers,
        known := insertId subId s.known }
  | .keyload recips psks key =>
    let s' := recordLink (bumpCursor s m.sender (m.seq + 1)) m.sender m.link
    if coveredBy s recips psks ∨ m.sender = s.id then
      { s' with keys := (m.link, key) :: s.keys, activeKeyload := some m.link }
    else s'
  | .taggedPacket _ _ _ =>
    recordLink (bumpCursor s m.sender (m.seq + 1)) m.sender m.link
  | .signedPacket _ _ _ =>
    recordLink (bumpCursor s m.sender (m.seq + 1)) m.sender m.link
  | .sequenceMsg _ => bumpCursor s m.sender (m.seq + 1)

/-- Replay a list of fetched messages, in publish order, on a session
state. -/
def replayMsgs (s : UserState) (hist : List Message) : UserState :=
  hist.foldl processMsg s

/-- The operation `auth_sync_state` (channels.h line 154), at the granularity used for the
recovery-equivalence property: the author processes, in publish order, the
reachable messages it has not yet seen. -/
def auth_sync_state (a : UserState) (pending : List Message) : UserState :=
  replayMsgs a pending

/-- The operation `auth_recover` (channels.h line 113): reconstruct an author session from
only the seed and the announce link by re-deriving the identity
deterministically and replaying all reachable history (spec section 4.7). -/
def auth_recover (seed : Nat) (hist : List Message) : UserState :=
  replayMsgs (freshAuthor seed) hist

/-! ### Address string conversions -/

/-- Modelled from the spec (section 3, Link) and the binding surface
(channels.h lines 18, 223-224): the textual form of an address, made of the
application-instance (channel) part and the message-id part, both rendered
as colon-free (hexadecimal) strings.  `get_address_inst_str` and
`get_address_id_str` return the two parts. -/
structure AddressText where
  inst : List Char
  msgid : List Char
deriving DecidableEq, Repr

/-- The operation `get_address_inst_str` (channels.h line 223). -/
def get_address_inst_str (a : AddressText) : List Char := a.inst

/-- The operation `get_address_id_str` (channels.h line 224). -/
def get_address_id_str (a : AddressText) : List Char := a.msgid

/-- Split a character list at its first colon: everything before it and
everything after it. -/
def splitAtColon : List Char → List Char × List Char
  | [] => ([], [])
  | c :: rest =>
    if c = ':' then ([], rest)
    else
      let r := splitAtColon rest
      (c :: r.1, r.2)

/-- Modelled from the spec and the binding surface (channels.h line 18,
used at bindings/c/main.c lines 129-140): `address_from_string` parses
"<inst>:<msgid>", splitting at the first colon. -/
def address_from_string (s : List Char) : AddressText :=
  let r := splitAtColon s
  ⟨r.1, r.2⟩

theorem splitAtColon_append (ys : List Char) :
    ∀ xs : List Char, ':' ∉ xs →
      splitAtColon (xs ++ ':' :: ys) = (xs, ys) := by
  intro xs
  induction xs with
  | nil => intro _; simp [splitAtColon]
  | cons x rest ih =>
    intro h
    have hx : ¬ x = ':' := fun hc => h (by simp [hc])
    simp only [List.cons_append, splitAtColon, if_neg hx]
    rw [show rest.append (':' :: ys) = rest ++ ':' :: ys from rfl,
      ih (fun hc => h (by simp [hc]))]

/-! ### C8: address string round-trip -/

/-- C8: for every valid address (one whose instance part contains no
colon separator), concatenating `get_address_inst_str`, ":" and
`get_address_id_str` and parsing the result with `address_from_string`
yields an address whose instance string and id string are equal to the
originals. -/
theorem address_from_string_roundtrip (a : AddressText)
    (h : ':' ∉ a.inst) :
    get_address_inst_str
        (address_from_string
          (get_address_inst_str a ++ [':'] ++ get_address_id_str a))
      = get_address_inst_str a ∧
    get_address_id_str
        (address_from_string
          (get_address_inst_str a ++ [':'] ++ get_address_id_str a))
      = get_address_id_str a := by
  unfold address_from_string get_address_inst_str get_address_id_str
  rw [List.append_assoc, List.singleton_append, splitAtColon_append a.msgid a.inst h]
  exact ⟨rfl, rfl⟩

/-- Witness for C8 at the concrete address ⟨"ab", "c0"⟩. -/
theorem address_from_string_roundtrip_witness :
    (':' ∉ (AddressText.mk ['a', 'b'] ['c', '0']).inst) ∧
    (get_address_inst_str
        (address_from_string
          (get_address_inst_str (AddressText.mk ['a', 'b'] ['c', '0']) ++ [':'] ++
            get_address_id_str (AddressText.mk ['a', 'b'] ['c', '0'])))
      = get_address_inst_str (AddressText.mk ['a', 'b'] ['c', '0']) ∧
    get_address_id_str
        (address_from_string
          (get_address_inst_str (AddressText.mk ['a', 'b'] ['c', '0']) ++ [':'] ++
            get_address_id_str (AddressText.mk ['a', 'b'] ['c', '0'])))
      = get_address_id_str (AddressText.mk ['a', 'b'] ['c', '0'])) :=
  ⟨by decide, address_from_string_roundtrip (AddressText.mk ['a', 'b'] ['c', '0'])
    (by decide)⟩

/-! ### C3: export/import round-trip -/

/-- C3: for every session state and password, importing the exported blob
with the same password succeeds and yields a session with cursors and
subscriber set identical to the original (indeed the identical state);
importing it with any different password fails with `BadPassword`,
returning no state at all. -/
theorem auth_import_export (S : UserState) (pw wrongPw : String)
    (h : wrongPw ≠ pw) :
    auth_import (auth_export S pw) pw = .ok S ∧
    (∀ S', auth_import (auth_export S pw) pw = .ok S' →
      S'.cursors = S.cursors ∧ S'.subscribers = S.subscribers) ∧
    auth_import (auth_export S pw) wrongPw = .error .badPassword := by
  refine ⟨?_, ?_, ?_⟩
  · simp [auth_import, auth_export]
  · intro S' hS'
    simp only [auth_import, auth_export, if_pos rfl] at hS'
    cases hS'
    exact ⟨rfl, rfl⟩
  · simp only [auth_import, auth_export]
    rw [if_neg (fun hc => h hc.symm)]

/-- Witness for C3 at a concrete author state with passwords "pw" and
"guess". -/
theorem auth_import_export_witness :
    ("guess" ≠ "pw") ∧
    (auth_import (auth_export (freshAuthor 5) "pw") "pw" = .ok (freshAuthor 5) ∧
      (∀ S', auth_import (auth_export (freshAuthor 5) "pw") "pw" = .ok S' →
        S'.cursors = (freshAuthor 5).cursors ∧
        S'.subscribers = (freshAuthor 5).subscribers) ∧
      auth_import (auth_export (freshAuthor 5) "pw") "guess"
        = .error .badPassword) :=
  ⟨by decide, auth_import_export (freshAuthor 5) "pw" "guess" (by decide)⟩

/-! ### C1: keyload denial fails closed -/

/-- C1: a subscriber whose identifier is not in a keyload's recipient set
and none of whose stored PSK ids is among the keyload's PSK ids fails
closed with `NoAccess` on `sub_receive_keyload`, learns no session key
(its state is not updated at all on error), and afterwards every
`sub_receive_tagged_packet` and `sub_receive_signed_packet` on a packet
linked under that keyload fails with `NoAccess` instead of returning
payload bytes. -/
theorem sub_receive_keyload_denied
    (s : UserState) (t : Transport) (klm pm sm : Message)
    (recips : List Identifier) (psks : List Nat) (key : Key)
    (pubT pubS : Bytes) (encT encS : Key × Bytes)
    (hkl : t.fetch klm.link = some klm)
    (hklc : klm.content = .keyload recips psks key)
    (hid : s.id ∉ recips)
    (hpsk : ∀ p ∈ s.psks, p ∉ psks)
    (hnokey : lookupKey s.keys klm.link = none)
    (hpm : t.fetch pm.link = some pm)
    (hpmc : pm.content = .taggedPacket klm.link pubT encT)
    (hsm : t.fetch sm.link = some sm)
    (hsmc : sm.content = .signedPacket klm.link pubS encS) :
    sub_receive_keyload s t klm.link = .error .noAccess ∧
    sub_receive_tagged_packet s t pm.link = .error .noAccess ∧
    sub_receive_signed_packet s t sm.link = .error .noAccess := by
  have hncov : ¬ coveredBy s recips psks := by
    intro hc
    rcases hc with hc | ⟨p, hp, hp'⟩
    · exact hid hc
    · exact hpsk p hp hp'
  refine ⟨?_, ?_, ?_⟩
  · simp [sub_receive_keyload, hkl, hklc, hncov]
  · simp [sub_receive_tagged_packet, hpm, hpmc, hnokey]
  · simp [sub_receive_signed_packet, hsm, hsmc, hnokey]

/-- Concrete excluded subscriber for the C1 witness. -/
def c1State : UserState := freshSubscriber 7

/-- Concrete keyload for the C1 witness, addressed to subscriber 1 and PSK 5
only. -/
def c1Keyload : Message :=
  ⟨⟨1, 10⟩, ⟨1, 0⟩, .pk 0, 0, .keyload [.pk 1] [5] 42⟩

/-- Concrete tagged packet under the C1 keyload. -/
def c1Tagged : Message :=
  ⟨⟨1, 11⟩, ⟨1, 10⟩, .pk 0, 1, .taggedPacket ⟨1, 10⟩ [1] (42, [2])⟩

/-- Concrete signed packet under the C1 keyload. -/
def c1Signed : Message :=
  ⟨⟨1, 12⟩, ⟨1, 10⟩, .pk 0, 2, .signedPacket ⟨1, 10⟩ [3] (42, [4])⟩

/-- Concrete transport for the C1 witness. -/
def c1Transport : Transport :=
  ((Transport.empty.store c1Keyload).store c1Tagged).store c1Signed

/-- Witness for C1 at the concrete denied subscriber. -/
theorem sub_receive_keyload_denied_witness :
    (c1Transport.fetch c1Keyload.link = some c1Keyload ∧
     c1Keyload.content = .keyload [.pk 1] [5] 42 ∧
     c1State.id ∉ [Identifier.pk 1] ∧
     (∀ p ∈ c1State.psks, p ∉ [5]) ∧
     lookupKey c1State.keys c1Keyload.link = none ∧
     c1Transport.fetch c1Tagged.link = some c1Tagged ∧
     c1Tagged.content = .taggedPacket c1Keyload.link [1] (42, [2]) ∧
     c1Transport.fetch c1Signed.link = some c1Signed ∧
     c1Signed.content = .signedPacket c1Keyload.link [3] (42, [4])) ∧
    (sub_receive_keyload c1State c1Transport c1Keyload.link
        = .error .noAccess ∧
     sub_receive_tagged_packet c1State c1Transport c1Tagged.link
        = .error .noAccess ∧
     sub_receive_signed_packet c1State c1Transport c1Signed.link
        = .error .noAccess) :=
  ⟨⟨rfl, rfl, by decide, by decide, rfl, rfl, rfl, rfl, rfl⟩,
   sub_receive_keyload_denied c1State c1Transport c1Keyload c1Tagged c1Signed
     [Identifier.pk 1] [5] 42 [1] [3] (42, [2]) (42, [4])
     rfl rfl (by decide) (by decide) rfl rfl rfl rfl rfl⟩

/-! ### C2: the end-to-end demo scenario -/

/-- The scenario of `bindings/c/main.c`: an author announces, subscriber A
receives the announcement and subscribes, the author accepts the
subscription and sends a keyload for everyone, the subscriber receives the
keyload's sequence message then the keyload, the author sends a signed
packet with the given payloads, and the subscriber receives the packet's
sequence message then the signed packet, returning the recovered payload
pair.  Every binding call is the model operation of the same name; a
failure at any step aborts the chain with its error code. -/
def scenarioC2 (pub mask : Bytes) : Except Err (Bytes × Bytes) := do
  let auth0 := freshAuthor 100
  let t0 := Transport.empty
  let (auth1, t1, annLink) ← auth_send_announce auth0 t0
  let subA0 := freshSubscriber 7
  let subA1 ← sub_receive_announce subA0 t1 annLink
  let (subA2, t2, subLink, _) ← sub_send_subscribe subA1 t1 annLink
  let auth2 ← auth_receive_subscribe auth1 t2 subLink
  let (auth3, t3, klMsgLink, klSeqLink) ←
    auth_send_keyload_for_everyone auth2 t2 annLink
  let (subA3, klLink) ← sub_receive_sequence subA2 t3 klSeqLink
  let subA4 ← sub_receive_keyload subA3 t3 klLink
  let (_auth4, t4, _spMsgLink, spSeqLink) ←
    auth_send_signed_packet auth3 t3 klMsgLink pub mask
  let (subA5, spLink) ← sub_receive_sequence subA4 t4 spSeqLink
  let (_subA6, p, m) ← sub_receive_signed_packet subA5 t4 spLink
  pure (p, m)

/-- C2: for every pair of payload byte strings, the whole scenario succeeds
(every binding step returns OK) and the subscriber recovers exactly the
public and masked payloads the author sent. -/
theorem scenarioC2_roundtrip (pub mask : Bytes) :
    scenarioC2 pub mask = .ok (pub, mask) := rfl

/-! ### C4: recovery equivalence -/

/-- C4: for every seed and transport history, split at any point `k` into
the part an author has already processed and the part it has not: the
author built by processing the prefix and then calling `sync_state` on the
remainder agrees with the author produced by `auth_recover`'s full
recovery replay, on the set of identifiers it considers subscribed and on
the state link recorded for the author's own public key (indeed on the
whole session state). -/
theorem auth_recover_equiv (seed : Nat) (hist : List Message) (k : Nat) :
    (auth_sync_state (replayMsgs (freshAuthor seed) (hist.take k))
        (hist.drop k)).subscribers
      = (auth_recover seed hist).subscribers ∧
    get_link_from_state
        (auth_sync_state (replayMsgs (freshAuthor seed) (hist.take k))
          (hist.drop k)) (freshAuthor seed).id
      = get_link_from_state (auth_recover seed hist) (freshAuthor seed).id := by
  have h : auth_sync_state (replayMsgs (freshAuthor seed) (hist.take k))
      (hist.drop k) = auth_recover seed hist := by
    unfold auth_sync_state auth_recover replayMsgs
    rw [← List.foldl_append, List.take_append_drop]
  exact ⟨by rw [h], by rw [h]⟩

/-! ### C6: link derivation is deterministic across participants -/

/-- C6: link derivation is deterministic.  All derivation operations
(`channelRoot`, `nextLink`, `seqMsgLink`, `chainLink`) are pure functions
of their inputs, so two calls with identical inputs yield identical links
definitionally; the substantive cross-participant consequence proved here
is that a receiver running `sub_gen_next_msg_ids` independently computes
exactly the link at which a sender on the same channel, at the same
cursor, stores its next content message. -/
theorem next_msg_id_deterministic (a s : UserState) (t : Transport)
    (prev : Link) (c : Content) (ch : Nat)
    (r : UserState × Transport × Link × Link)
    (hac : a.chan = some ch) (hsc : s.chan = some ch)
    (hcur : s.cursors a.id = a.cursors a.id)
    (hknown : a.id ∈ s.known)
    (hsend : sendMessage a t prev c = .ok r) :
    (a.id, r.2.2.1) ∈ sub_gen_next_msg_ids s := by
  simp only [sendMessage, hac] at hsend
  cases hsend
  unfold sub_gen_next_msg_ids
  rw [hsc]
  exact List.mem_map.mpr ⟨a.id, hknown, by rw [hcur]⟩

/-- Concrete subscriber state for the C6 witness: bound to the author's
channel and aware of the author's identifier. -/
def c6Sub : UserState := { freshSubscriber 4 with chan := some 3, known := [.pk 3] }

/-- The concrete result of the C6 witness send. -/
def c6SendResult : UserState × Transport × Link × Link :=
  match sendMessage (freshAuthor 3) Transport.empty (channelRoot 3) .announce with
  | .ok r => r
  | .error _ => (freshAuthor 3, Transport.empty, channelRoot 3, channelRoot 3)

/-- Witness for C6 at a concrete author/subscriber pair on channel 3. -/
theorem next_msg_id_deterministic_witness :
    ((freshAuthor 3).chan = some 3 ∧ c6Sub.chan = some 3 ∧
     c6Sub.cursors (freshAuthor 3).id
        = (freshAuthor 3).cursors (freshAuthor 3).id ∧
     (freshAuthor 3).id ∈ c6Sub.known ∧
     sendMessage (freshAuthor 3) Transport.empty (channelRoot 3) .announce
        = .ok c6SendResult) ∧
    ((freshAuthor 3).id, c6SendResult.2.2.1) ∈ sub_gen_next_msg_ids c6Sub :=
  ⟨⟨rfl, rfl, rfl, by decide, rfl⟩,
   next_msg_id_deterministic (freshAuthor 3) c6Sub Transport.empty
     (channelRoot 3) .announce 3 c6SendResult rfl rfl rfl (by decide) rfl⟩

/-! ### C7: cursors never decrease except via explicit Reset -/

theorem bumpCursor_le (s : UserState) (a : Identifier) (n : Nat)
    (i : Identifier) : s.cursors i ≤ (bumpCursor s a n).cursors i := by
  unfold bumpCursor
  dsimp only
  by_cases h : i = a
  · subst h
    rw [if_pos rfl]
    exact le_max_left _ _
  · rw [if_neg h]

theorem sub_receive_announce_mono {s s' : UserState} {t : Transport} {l : Link}
    (h : sub_receive_announce s t l = .ok s') :
    ∀ i, s.cursors i ≤ s'.cursors i := by
  unfold sub_receive_announce at h
  repeat' split at h
  all_goals cases h
  all_goals intro i
  all_goals exact le_refl _

theorem auth_receive_subscribe_mono {s s' : UserState} {t : Transport} {l : Link}
    (h : auth_receive_subscribe s t l = .ok s') :
    ∀ i, s.cursors i ≤ s'.cursors i := by
  unfold auth_receive_subscribe at h
  repeat' split at h
  all_goals cases h
  all_goals intro i
  all_goals exact bumpCursor_le _ _ _ _

theorem sub_receive_keyload_mono {s s' : UserState} {t : Transport} {l : Link}
    (h : sub_receive_keyload s t l = .ok s') :
    ∀ i, s.cursors i ≤ s'.cursors i := by
  unfold sub_receive_keyload at h
  repeat' split at h
  all_goals cases h
  all_goals intro i
  all_goals exact bumpCursor_le _ _ _ _

theorem sub_receive_tagged_packet_mono {s : UserState} {t : Transport} {l : Link}
    {r : UserState × Bytes × Bytes}
    (h : sub_receive_tagged_packet s t l = .ok r) :
    ∀ i, s.cursors i ≤ r.1.cursors i := by
  unfold sub_receive_tagged_packet at h
  repeat' split at h
  all_goals cases h
  all_goals intro i
  all_goals exact bumpCursor_le _ _ _ _

theorem sub_receive_signed_packet_mono {s : UserState} {t : Transport} {l : Link}
    {r : UserState × Bytes × Bytes}
    (h : sub_receive_signed_packet s t l = .ok r) :
    ∀ i, s.cursors i ≤ r.1.cursors i := by
  unfold sub_receive_signed_packet at h
  repeat' split at h
  all_goals cases h
  all_goals intro i
  all_goals exact bumpCursor_le _ _ _ _

theorem sub_receive_sequence_mono {s : UserState} {t : Transport} {l : Link}
    {r : UserState × Link}
    (h : sub_receive_sequence s t l = .ok r) :
    ∀ i, s.cursors i ≤ r.1.cursors i := by
  unfold sub_receive_sequence at h
  repeat' split at h
  all_goals cases h
  all_goals intro i
  all_goals exact bumpCursor_le _ _ _ _

theorem sendMessage_mono {s : UserState} {t : Transport} {prev : Link}
    {c : Content} {r : UserState × Transport × Link × Link}
    (h : sendMessage s t prev c = .ok r) :
    ∀ i, s.cursors i ≤ r.1.cursors i := by
  unfold sendMessage at h
  repeat' split at h
  all_goals cases h
  all_goals intro i
  all_goals exact bumpCursor_le _ _ _ _

theorem auth_send_keyload_for_everyone_mono {s : UserState} {t : Transport}
    {prev : Link} {r : UserState × Transport × Link × Link}
    (h : auth_send_keyload_for_everyone s t prev = .ok r) :
    ∀ i, s.cursors i ≤ r.1.cursors i := by
  unfold auth_send_keyload_for_everyone at h
  repeat' split at h
  all_goals cases h
  all_goals intro i
  all_goals rename_i hsend
  all_goals exact sendMessage_mono hsend i

theorem auth_send_tagged_packet_mono {s : UserState} {t : Transport}
    {prev : Link} {pub mask : Bytes} {r : UserState × Transport × Link × Link}
    (h : auth_send_tagged_packet s t prev pub mask = .ok r) :
    ∀ i, s.cursors i ≤ r.1.cursors i := by
  unfold auth_send_tagged_packet at h
  repeat' split at h
  all_goals first
    | cases h
    | exact sendMessage_mono h

theorem auth_send_signed_packet_mono {s : UserState} {t : Transport}
    {prev : Link} {pub mask : Bytes} {r : UserState × Transport × Link × Link}
    (h : auth_send_signed_packet s t prev pub mask = .ok r) :
    ∀ i, s.cursors i ≤ r.1.cursors i := by
  unfold auth_send_signed_packet at h
  repeat' split at h
  all_goals first
    | cases h
    | exact sendMessage_mono h

theorem fetchNextFor_mono {s : UserState} {t : Transport} {j : Identifier}
    {r : UserState × (Bytes × Bytes)}
    (h : fetchNextFor s t j = some r) :
    ∀ i, s.cursors i ≤ r.1.cursors i := by
  unfold fetchNextFor at h
  repeat' split at h
  all_goals cases h
  all_goals intro i
  all_goals exact bumpCursor_le _ _ _ _

theorem syncLoop_mono (t : Transport) (j : Identifier) :
    ∀ (fuel : Nat) (s : UserState) (i : Identifier),
      s.cursors i ≤ (syncLoop fuel s t j).1.cursors i := by
  intro fuel
  induction fuel with
  | zero => intro s i; exact le_refl _
  | succ n ih =>
    intro s i
    unfold syncLoop
    split
    · exact le_refl _
    · rename_i s' p hr
      exact le_trans (fetchNextFor_mono hr i) (ih s' i)

theorem sub_sync_state_mono (s : UserState) (t : Transport) (fuel : Nat)
    (i : Identifier) :
    s.cursors i ≤ (sub_sync_state s t fuel).1.cursors i := by
  unfold sub_sync_state
  suffices h : ∀ (l : List Identifier) (acc : UserState × List (Bytes × Bytes)),
      acc.1.cursors i ≤
        (l.foldl (fun acc j =>
            let r := syncLoop fuel acc.1 t j
            (r.1, acc.2 ++ r.2)) acc).1.cursors i by
    exact h s.known (s, [])
  intro l
  induction l with
  | nil => intro acc; exact le_refl _
  | cons j rest ih =>
    intro acc
    rw [List.foldl_cons]
    exact le_trans (syncLoop_mono t j fuel acc.1 i)
      (ih ((syncLoop fuel acc.1 t j).1, acc.2 ++ (syncLoop fuel acc.1 t j).2))

/-- The public operations of the user state machine, as invoked through the
binding surface. -/
inductive UserOp
  | recvAnnounce (l : Link)
  | recvSubscribe (l : Link)
  | recvKeyload (l : Link)
  | recvTagged (l : Link)
  | recvSigned (l : Link)
  | recvSequence (l : Link)
  | sendSubscribe (ann : Link)
  | sendKeyloadForEveryone (prev : Link)
  | sendTagged (prev : Link) (pub mask : Bytes)
  | sendSigned (prev : Link) (pub mask : Bytes)
  | syncState (fuel : Nat)
  | resetState
deriving DecidableEq, Repr

/-- The session state after running one public operation: on failure the
operation aborts and leaves the session state unchanged (spec section 7). -/
def applyOp (s : UserState) (t : Transport) : UserOp → UserState
  | .recvAnnounce l =>
    match sub_receive_announce s t l with | .ok s' => s' | .error _ => s
  | .recvSubscribe l =>
    match auth_receive_subscribe s t l with | .ok s' => s' | .error _ => s
  | .recvKeyload l =>
    match sub_receive_keyload s t l with | .ok s' => s' | .error _ => s
  | .recvTagged l =>
    match sub_receive_tagged_packet s t l with | .ok r => r.1 | .error _ => s
  | .recvSigned l =>
    match sub_receive_signed_packet s t l with | .ok r => r.1 | .error _ => s
  | .recvSequence l =>
    match sub_receive_sequence s t l with | .ok r => r.1 | .error _ => s
  | .sendSubscribe ann =>
    match sub_send_subscribe s t ann with | .ok r => r.1 | .error _ => s
  | .sendKeyloadForEveryone prev =>
    match auth_send_keyload_for_everyone s t prev with
    | .ok r => r.1 | .error _ => s
  | .sendTagged prev pub mask =>
    match auth_send_tagged_packet s t prev pub mask with
    | .ok r => r.1 | .error _ => s
  | .sendSigned prev pub mask =>
    match auth_send_signed_packet s t prev pub mask with
    | .ok r => r.1 | .error _ => s
  | .syncState fuel => (sub_sync_state s t fuel).1
  | .resetState => sub_reset_state s

/-- C7: for every session state, transport, identifier, and public
operation of the user state machine other than explicit Reset, the
session's cursor for that identifier after the operation is at least its
value before; only `resetState` may decrease a cursor. -/
theorem applyOp_cursor_mono (s : UserState) (t : Transport) (op : UserOp)
    (i : Identifier) (h : op ≠ UserOp.resetState) :
    s.cursors i ≤ (applyOp s t op).cursors i := by
  cases op with
  | recvAnnounce l =>
    simp only [applyOp]
    split
    · rename_i s' hs'; exact sub_receive_announce_mono hs' i
    · exact le_refl _
  | recvSubscribe l =>
    simp only [applyOp]
    split
    · rename_i s' hs'; exact auth_receive_subscribe_mono hs' i
    · exact le_refl _
  | recvKeyload l =>
    simp only [applyOp]
    split
    · rename_i s' hs'; exact sub_receive_keyload_mono hs' i
    · exact le_refl _
  | recvTagged l =>
    simp only [applyOp]
    split
    · rename_i r hr; exact sub_receive_tagged_packet_mono hr i
    · exact le_refl _
  | recvSigned l =>
    simp only [applyOp]
    split
    · rename_i r hr; exact sub_receive_signed_packet_mono hr i
    · exact le_refl _
  | recvSequence l =>
    simp only [applyOp]
    split
    · rename_i r hr; exact sub_receive_sequence_mono hr i
    · exact le_refl _
  | sendSubscribe ann =>
    simp only [applyOp]
    split
    · rename_i r hr; exact sendMessage_mono hr i
    · exact le_refl _
  | sendKeyloadForEveryone prev =>
    simp only [applyOp]
    split
    · rename_i r hr; exact auth_send_keyload_for_everyone_mono hr i
    · exact le_refl _
  | sendTagged prev pub mask =>
    simp only [applyOp]
    split
    · rename_i r hr; exact auth_send_tagged_packet_mono hr i
    · exact le_refl _
  | sendSigned prev pub mask =>
    simp only [applyOp]
    split
    · rename_i r hr; exact auth_send_signed_packet_mono hr i
    · exact le_refl _
  | syncState fuel => exact sub_sync_state_mono s t fuel i
  | resetState => exact absurd rfl h

/-- Witness for C7 at a concrete subscriber, operation and identifier. -/
theorem applyOp_cursor_mono_witness :
    (UserOp.recvAnnounce (channelRoot 3) ≠ UserOp.resetState) ∧
    (freshSubscriber 1).cursors (.pk 0)
      ≤ (applyOp (freshSubscriber 1) Transport.empty
          (UserOp.recvAnnounce (channelRoot 3))).cursors (.pk 0) :=
  ⟨by decide,
   applyOp_cursor_mono (freshSubscriber 1) Transport.empty
     (UserOp.recvAnnounce (channelRoot 3)) (.pk 0) (by decide)⟩

/-! ### C5: one sync_state call returns all published packets in order -/

/-- The author publishes a list of payload pairs as tagged packets, each
linked to the same previous links, as the demo does at
`bindings/c/main.c` lines 417-447. -/
def authPublish : UserState → Transport → Link → List (Bytes × Bytes) →
    Except Err (UserState × Transport)
  | a, t, _, [] => .ok (a, t)
  | a, t, prev, (pub, mask) :: rest =>
    match auth_send_tagged_packet a t prev pub mask with
    | .error e => .error e
    | .ok (a', t', _, _) => authPublish a' t' prev rest

theorem fetch_store_ne (t : Transport) (m : Message) (l : Link)
    (h : l ≠ m.link) : (t.store m).fetch l = t.fetch l := by
  simp [Transport.store, Transport.fetch, h]

theorem fetch_store_eq (t : Transport) (m : Message) :
    (t.store m).fetch m.link = some m := by
  simp [Transport.store, Transport.fetch]

theorem seqMsgLink_ne_nextLink (ch ch' : Nat) (i i' : Identifier)
    (a b : Nat) : seqMsgLink ch i a ≠ nextLink ch' i' b := by
  intro h
  have h2 := congrArg Link.msgid h
  simp only [seqMsgLink, nextLink] at h2
  exact absurd (Nat.pair_eq_pair.mp h2).1 (by decide)

theorem seqMsgLink_inj_seq (ch : Nat) (i : Identifier) {a b : Nat}
    (h : seqMsgLink ch i a = seqMsgLink ch i b) : a = b := by
  have h2 := congrArg Link.msgid h
  simp only [seqMsgLink] at h2
  exact (Nat.pair_eq_pair.mp (Nat.pair_eq_pair.mp h2).2).2

theorem nextLink_inj_seq (ch : Nat) (i : Identifier) {a b : Nat}
    (h : nextLink ch i a = nextLink ch i b) : a = b := by
  have h2 := congrArg Link.msgid h
  simp only [nextLink] at h2
  exact (Nat.pair_eq_pair.mp (Nat.pair_eq_pair.mp h2).2).2

/-- The explicit result of one successful tagged-packet send. -/
theorem auth_send_tagged_step (a : UserState) (t : Transport) (prev : Link)
    (ch : Nat) (kl : Link) (k : Key) (pub mask : Bytes)
    (hch : a.chan = some ch) (hak : a.activeKeyload = some kl)
    (hkey : lookupKey a.keys kl = some k) :
    auth_send_tagged_packet a t prev pub mask =
      .ok (recordLink (bumpCursor a a.id (a.cursors a.id + 1)) a.id
             (nextLink ch a.id (a.cursors a.id)),
           (t.store ⟨nextLink ch a.id (a.cursors a.id), prev, a.id,
              a.cursors a.id, .taggedPacket kl pub (encryptPayload k mask)⟩).store
             ⟨seqMsgLink ch a.id (a.cursors a.id), prev, a.id, a.cursors a.id,
              .sequenceMsg (nextLink ch a.id (a.cursors a.id))⟩,
           nextLink ch a.id (a.cursors a.id),
           seqMsgLink ch a.id (a.cursors a.id)) := by
  simp only [auth_send_tagged_packet, sendMessage, hch, hak, hkey]

theorem syncLoop_succ_some (fuel : Nat) (s s' : UserState) (t : Transport)
    (i : Identifier) (p : Bytes × Bytes)
    (h : fetchNextFor s t i = some (s', p)) :
    (syncLoop (fuel + 1) s t i).2 = p :: (syncLoop fuel s' t i).2 := by
  simp only [syncLoop, h]

/-- Publishing a batch of tagged packets only stores at the author's own
sequence-message and content links at or beyond its current cursor; every
other transport cell is untouched. -/
theorem authPublish_preserves (prev : Link) (ch : Nat) (kl : Link) (k : Key) :
    ∀ (ps : List (Bytes × Bytes)) (a : UserState) (t : Transport)
      (r : UserState × Transport) (l : Link),
      a.chan = some ch → a.activeKeyload = some kl →
      lookupKey a.keys kl = some k →
      authPublish a t prev ps = .ok r →
      (∀ j, a.cursors a.id ≤ j →
        l ≠ seqMsgLink ch a.id j ∧ l ≠ nextLink ch a.id j) →
      r.2.fetch l = t.fetch l := by
  intro ps
  induction ps with
  | nil =>
    intro a t r l _ _ _ hpub _
    cases hpub
    rfl
  | cons p rest ih =>
    intro a t r l hch hak hkey hpub hl
    obtain ⟨pub, mask⟩ := p
    have hstep := auth_send_tagged_step a t prev ch kl k pub mask hch hak hkey
    simp only [authPublish, hstep] at hpub
    have hcur1 : (recordLink (bumpCursor a a.id (a.cursors a.id + 1)) a.id
        (nextLink ch a.id (a.cursors a.id))).cursors a.id
          = a.cursors a.id + 1 := by
      simp [recordLink, bumpCursor]
    have hl1 : ∀ j, (recordLink (bumpCursor a a.id (a.cursors a.id + 1)) a.id
          (nextLink ch a.id (a.cursors a.id))).cursors a.id ≤ j →
        l ≠ seqMsgLink ch a.id j ∧ l ≠ nextLink ch a.id j := by
      intro j hj
      rw [hcur1] at hj
      exact hl j (by omega)
    have hrest := ih (recordLink (bumpCursor a a.id (a.cursors a.id + 1)) a.id
          (nextLink ch a.id (a.cursors a.id)))
        ((t.store ⟨nextLink ch a.id (a.cursors a.id), prev, a.id,
            a.cursors a.id, .taggedPacket kl pub (encryptPayload k mask)⟩).store
          ⟨seqMsgLink ch a.id (a.cursors a.id), prev, a.id, a.cursors a.id,
            .sequenceMsg (nextLink ch a.id (a.cursors a.id))⟩)
        r l hch hak hkey hpub hl1
    rw [hrest,
      fetch_store_ne _ _ _ (hl (a.cursors a.id) (le_refl _)).1,
      fetch_store_ne _ _ _ (hl (a.cursors a.id) (le_refl _)).2]

/-- The core of C5: publishing `ps` as tagged packets succeeds, and a
single bounded catch-up loop run by a subscriber that is caught up to the
author's pre-publication cursor and holds the covering session key returns
exactly `ps`, in publish order. -/
theorem authPublish_syncLoop (prev : Link) (ch : Nat) (kl : Link) (k : Key) :
    ∀ (ps : List (Bytes × Bytes)) (a s : UserState) (t : Transport),
      a.chan = some ch → a.activeKeyload = some kl →
      lookupKey a.keys kl = some k →
      s.chan = some ch → s.cursors a.id = a.cursors a.id →
      lookupKey s.keys kl = some k →
      (∀ j, a.cursors a.id ≤ j → t.fetch (seqMsgLink ch a.id j) = none) →
      ∃ r, authPublish a t prev ps = .ok r ∧
        (syncLoop (ps.length + 1) s r.2 a.id).2 = ps := by
  intro ps
  induction ps with
  | nil =>
    intro a s t hch hak hkey hsch hcur hskey hemp
    refine ⟨(a, t), rfl, ?_⟩
    have hf : fetchNextFor s t a.id = none := by
      simp only [fetchNextFor, hsch, hcur, hemp (a.cursors a.id) (le_refl _)]
    simp only [List.length_nil, syncLoop, hf]
  | cons p rest ih =>
    intro a s t hch hak hkey hsch hcur hskey hemp
    obtain ⟨pub, mask⟩ := p
    have hstep := auth_send_tagged_step a t prev ch kl k pub mask hch hak hkey
    have ha1 : (recordLink (bumpCursor a a.id (a.cursors a.id + 1)) a.id
        (nextLink ch a.id (a.cursors a.id))).cursors a.id
          = a.cursors a.id + 1 := by
      simp [recordLink, bumpCursor]
    have hs1 : (recordLink (bumpCursor s a.id (a.cursors a.id + 1)) a.id
        (nextLink ch a.id (a.cursors a.id))).cursors a.id
          = a.cursors a.id + 1 := by
      simp [recordLink, bumpCursor, hcur]
    have hemp1 : ∀ j, (recordLink (bumpCursor a a.id (a.cursors a.id + 1)) a.id
          (nextLink ch a.id (a.cursors a.id))).cursors a.id ≤ j →
        ((t.store ⟨nextLink ch a.id (a.cursors a.id), prev, a.id,
            a.cursors a.id, .taggedPacket kl pub (encryptPayload k mask)⟩).store
          ⟨seqMsgLink ch a.id (a.cursors a.id), prev, a.id, a.cursors a.id,
            .sequenceMsg (nextLink ch a.id (a.cursors a.id))⟩).fetch
          (seqMsgLink ch a.id j) = none := by
      intro j hj
      rw [ha1] at hj
      rw [fetch_store_ne _ _ _
            (fun h => by
              have := seqMsgLink_inj_seq ch a.id h
              omega),
          fetch_store_ne _ _ _
            (seqMsgLink_ne_nextLink ch ch a.id a.id j (a.cursors a.id))]
      exact hemp j (by omega)
    obtain ⟨r, hpub, hsync⟩ :=
      ih (recordLink (bumpCursor a a.id (a.cursors a.id + 1)) a.id
            (nextLink ch a.id (a.cursors a.id)))
         (recordLink (bumpCursor s a.id (a.cursors a.id + 1)) a.id
            (nextLink ch a.id (a.cursors a.id)))
         ((t.store ⟨nextLink ch a.id (a.cursors a.id), prev, a.id,
              a.cursors a.id,
              .taggedPacket kl pub (encryptPayload k mask)⟩).store
            ⟨seqMsgLink ch a.id (a.cursors a.id), prev, a.id, a.cursors a.id,
              .sequenceMsg (nextLink ch a.id (a.cursors a.id))⟩)
         hch hak hkey hsch (hs1.trans ha1.symm) hskey hemp1
    have hside1 : ∀ j, (recordLink (bumpCursor a a.id (a.cursors a.id + 1)) a.id
          (nextLink ch a.id (a.cursors a.id))).cursors a.id ≤ j →
        seqMsgLink ch a.id (a.cursors a.id) ≠ seqMsgLink ch a.id j ∧
        seqMsgLink ch a.id (a.cursors a.id) ≠ nextLink ch a.id j := by
      intro j hj
      rw [ha1] at hj
      constructor
      · exact fun h => by
          have := seqMsgLink_inj_seq ch a.id h
          omega
      · exact seqMsgLink_ne_nextLink ch ch a.id a.id (a.cursors a.id) j
    have hside2 : ∀ j, (recordLink (bumpCursor a a.id (a.cursors a.id + 1)) a.id
          (nextLink ch a.id (a.cursors a.id))).cursors a.id ≤ j →
        nextLink ch a.id (a.cursors a.id) ≠ seqMsgLink ch a.id j ∧
        nextLink ch a.id (a.cursors a.id) ≠ nextLink ch a.id j := by
      intro j hj
      rw [ha1] at hj
      constructor
      · exact fun h => seqMsgLink_ne_nextLink ch ch a.id a.id j
          (a.cursors a.id) h.symm
      · exact fun h => by
          have := nextLink_inj_seq ch a.id h
          omega
    have hpres1 := authPublish_preserves prev ch kl k rest
        (recordLink (bumpCursor a a.id (a.cursors a.id + 1)) a.id
          (nextLink ch a.id (a.cursors a.id)))
        ((t.store ⟨nextLink ch a.id (a.cursors a.id), prev, a.id,
            a.cursors a.id, .taggedPacket kl pub (encryptPayload k mask)⟩).store
          ⟨seqMsgLink ch a.id (a.cursors a.id), prev, a.id, a.cursors a.id,
            .sequenceMsg (nextLink ch a.id (a.cursors a.id))⟩)
        r (seqMsgLink ch a.id (a.cursors a.id)) hch hak hkey hpub hside1
    have hpres2 := authPublish_preserves prev ch kl k rest
        (recordLink (bumpCursor a a.id (a.cursors a.id + 1)) a.id
          (nextLink ch a.id (a.cursors a.id)))
        ((t.store ⟨nextLink ch a.id (a.cursors a.id), prev, a.id,
            a.cursors a.id, .taggedPacket kl pub (encryptPayload k mask)⟩).store
          ⟨seqMsgLink ch a.id (a.cursors a.id), prev, a.id, a.cursors a.id,
            .sequenceMsg (nextLink ch a.id (a.cursors a.id))⟩)
        r (nextLink ch a.id (a.cursors a.id)) hch hak hkey hpub hside2
    have hfs : r.2.fetch (seqMsgLink ch a.id (a.cursors a.id)) =
        some ⟨seqMsgLink ch a.id (a.cursors a.id), prev, a.id, a.cursors a.id,
          .sequenceMsg (nextLink ch a.id (a.cursors a.id))⟩ := by
      rw [hpres1]
      exact fetch_store_eq _ _
    have hfc : r.2.fetch (nextLink ch a.id (a.cursors a.id)) =
        some ⟨nextLink ch a.id (a.cursors a.id), prev, a.id, a.cursors a.id,
          .taggedPacket kl pub (encryptPayload k mask)⟩ := by
      rw [hpres2,
        fetch_store_ne _ _ _
          (Ne.symm (seqMsgLink_ne_nextLink ch ch a.id a.id
            (a.cursors a.id) (a.cursors a.id)))]
      exact fetch_store_eq _ _
    have hfetch : fetchNextFor s r.2 a.id =
        some (recordLink (bumpCursor s a.id (a.cursors a.id + 1)) a.id
                (nextLink ch a.id (a.cursors a.id)), (pub, mask)) := by
      simp only [fetchNextFor, hsch, hcur, hfs, hfc, hskey, decryptPayload,
        encryptPayload]
      simp
    have hsync' : (syncLoop (rest.length + 1)
        (recordLink (bumpCursor s a.id (a.cursors a.id + 1)) a.id
          (nextLink ch a.id (a.cursors a.id))) r.2 a.id).2 = rest := hsync
    refine ⟨r, ?_, ?_⟩
    · simp only [authPublish, hstep]
      exact hpub
    · simp only [List.length_cons]
      rw [syncLoop_succ_some (rest.length + 1) s
        (recordLink (bumpCursor s a.id (a.cursors a.id + 1)) a.id
          (nextLink ch a.id (a.cursors a.id))) r.2 a.id (pub, mask) hfetch]
      rw [hsync']

/-- C5: for every non-empty list of payload pairs published by the same
author in multi-branch mode (each as a tagged packet with its Sequence
message), publishing succeeds, and a subscriber that is caught up to the
author's pre-publication cursor, holds the covering session key, and then
calls `sub_sync_state` exactly once receives exactly those payload pairs,
in publish order, none missing and none duplicated. -/
theorem sub_sync_state_receives_all (prev : Link) (ch : Nat) (kl : Link)
    (k : Key) (ps : List (Bytes × Bytes)) (a s : UserState) (t : Transport)
    (hN : 1 ≤ ps.length)
    (hch : a.chan = some ch) (hak : a.activeKeyload = some kl)
    (hkey : lookupKey a.keys kl = some k)
    (hsch : s.chan = some ch) (hknown : s.known = [a.id])
    (hcur : s.cursors a.id = a.cursors a.id)
    (hskey : lookupKey s.keys kl = some k)
    (hemp : ∀ j, a.cursors a.id ≤ j →
      t.fetch (seqMsgLink ch a.id j) = none) :
    ∃ r, authPublish a t prev ps = .ok r ∧
      (sub_sync_state s r.2 (ps.length + 1)).2 = ps := by
  obtain ⟨r, hpub, hsync⟩ := authPublish_syncLoop prev ch kl k ps a s t
    hch hak hkey hsch hcur hskey hemp
  refine ⟨r, hpub, ?_⟩
  unfold sub_sync_state
  rw [hknown]
  simp only [List.foldl_cons, List.foldl_nil]
  simpa using hsync

/-- The keyload link of the C5 witness. -/
def c5Keyload : Link := ⟨9, 999⟩

/-- The author of the C5 witness, holding session key 5 for its active
keyload. -/
def c5Author : UserState :=
  { freshAuthor 9 with
    activeKeyload := some c5Keyload,
    keys := [(c5Keyload, 5)] }

/-- The subscriber of the C5 witness, bound to the channel and holding the
covering session key. -/
def c5Sub : UserState :=
  { freshSubscriber 4 with
    chan := some 9,
    known := [(freshAuthor 9).id],
    keys := [(c5Keyload, 5)] }

/-- Witness for C5 at one concrete payload pair. -/
theorem sub_sync_state_receives_all_witness :
    (1 ≤ ([([1], [2])] : List (Bytes × Bytes)).length ∧
     c5Author.chan = some 9 ∧
     c5Author.activeKeyload = some c5Keyload ∧
     lookupKey c5Author.keys c5Keyload = some 5 ∧
     c5Sub.chan = some 9 ∧
     c5Sub.known = [c5Author.id] ∧
     c5Sub.cursors c5Author.id = c5Author.cursors c5Author.id ∧
     lookupKey c5Sub.keys c5Keyload = some 5 ∧
     (∀ j, c5Author.cursors c5Author.id ≤ j →
       Transport.empty.fetch (seqMsgLink 9 c5Author.id j) = none)) ∧
    ∃ r, authPublish c5Author Transport.empty (channelRoot 9)
        ([([1], [2])] : List (Bytes × Bytes)) = .ok r ∧
      (sub_sync_state c5Sub r.2
        (([([1], [2])] : List (Bytes × Bytes)).length + 1)).2
        = ([([1], [2])] : List (Bytes × Bytes)) :=
  ⟨⟨by decide, rfl, rfl, rfl, rfl, rfl, rfl, rfl, fun _ _ => rfl⟩,
   sub_sync_state_receives_all (channelRoot 9) 9 c5Keyload 5
     ([([1], [2])] : List (Bytes × Bytes)) c5Author c5Sub Transport.empty
     (by decide) rfl rfl rfl rfl rfl rfl rfl (fun _ _ => rfl)⟩

end Streams
